import Mathlib

/-!
Verification of the L3 lightweight logging library (undoio/l3) against its
natural-language specification. Each section shallowly embeds one component
of the C sources and proves (or refutes) the frozen claims about it.

Components embedded below:
* use-cases/utils/size_str.c - the numeric/size formatting utility;
* l3.c (variadic generation) - the ring-buffer runtime with multi-slot
  variadic entries;
* src/l3.c (fixed two-argument generation) - the one-slot-per-entry runtime;
* use-cases/client-server-msgs-perf/svmsg_file_server.c - the client table
  of the IPC benchmark server.
-/

namespace SizeStr

/-! Embedding of use-cases/utils/size_str.c and its macros from size_str.h. -/

def SZ_KiB : Nat := 1024
def SZ_MiB : Nat := SZ_KiB * 1024
def SZ_GiB : Nat := SZ_MiB * 1024
def SZ_TiB : Nat := SZ_GiB * 1024

def VAL_OneK : Nat := 1000
def VAL_Million : Nat := 1000 * VAL_OneK
def VAL_Billion : Nat := 1000 * VAL_Million
def VAL_Trillion : Nat := 1000 * VAL_Billion

/-- Rendering of the fractional part, mirroring the snprintf format "%02ld"
for a value in 0..99: two digits, zero-padded on the left. -/
def frac2 (n : Nat) : String :=
  if n < 10 then "0" ++ toString n else toString n

/-- Shared rendering tail of size_to_str and value_to_str:
the C code does snprintf of the approximate form when
(frac_val or is_approx) holds, and of the plain form otherwise. -/
def render (unit_val frac_val : Nat) (is_approx : Bool) (units : String) : String :=
  if (frac_val != 0) || is_approx then
    "~" ++ toString unit_val ++ "." ++ frac2 frac_val ++ " " ++ units
  else
    toString unit_val ++ " " ++ units

/-- Embedding of size_to_str from size_str.c: the binary byte-count ladder
TiB, GiB, MiB, KiB tried largest first, with the raw-bytes base case.
Per branch the C computes unit_val = size / U, frac_val = 100 * (size mod U) / U
and is_approx = (size > U_TO_B(unit_val)), then renders through the shared
tail. The base case renders the raw byte count exactly. -/
def size_to_str (size : Nat) : String :=
  if size ≥ SZ_TiB then
    render (size / SZ_TiB) (100 * (size % SZ_TiB) / SZ_TiB)
      (decide ((size / SZ_TiB) * SZ_TiB < size)) "TiB"
  else if size ≥ SZ_GiB then
    render (size / SZ_GiB) (100 * (size % SZ_GiB) / SZ_GiB)
      (decide ((size / SZ_GiB) * SZ_GiB < size)) "GiB"
  else if size ≥ SZ_MiB then
    render (size / SZ_MiB) (100 * (size % SZ_MiB) / SZ_MiB)
      (decide ((size / SZ_MiB) * SZ_MiB < size)) "MiB"
  else if size ≥ SZ_KiB then
    render (size / SZ_KiB) (100 * (size % SZ_KiB) / SZ_KiB)
      (decide ((size / SZ_KiB) * SZ_KiB < size)) "KiB"
  else
    render size 0 false "bytes"

/-- Embedding of value_to_str from size_str.c: the decimal ladder Trillion,
Billion, Million, K tried largest first. In the base case the C leaves
units = NULL and frac_val = 0, is_approx = false, so it stores an empty
string in the output buffer. -/
def value_to_str (value : Nat) : String :=
  if value ≥ VAL_Trillion then
    render (value / VAL_Trillion) (100 * (value % VAL_Trillion) / VAL_Trillion)
      (decide ((value / VAL_Trillion) * VAL_Trillion < value)) "Trillion"
  else if value ≥ VAL_Billion then
    render (value / VAL_Billion) (100 * (value % VAL_Billion) / VAL_Billion)
      (decide ((value / VAL_Billion) * VAL_Billion < value)) "Billion"
  else if value ≥ VAL_Million then
    render (value / VAL_Million) (100 * (value % VAL_Million) / VAL_Million)
      (decide ((value / VAL_Million) * VAL_Million < value)) "Million"
  else if value ≥ VAL_OneK then
    render (value / VAL_OneK) (100 * (value % VAL_OneK) / VAL_OneK)
      (decide ((value / VAL_OneK) * VAL_OneK < value)) "K"
  else
    ""

/-- The unit chosen by the byte ladder of size_to_str, for inputs of at
least one KiB (so that some ladder unit applies). -/
def chosenByteUnit (v : Nat) : Nat × String :=
  if v ≥ SZ_TiB then (SZ_TiB, "TiB")
  else if v ≥ SZ_GiB then (SZ_GiB, "GiB")
  else if v ≥ SZ_MiB then (SZ_MiB, "MiB")
  else (SZ_KiB, "KiB")

/-- The unit chosen by the decimal ladder of value_to_str, for inputs of at
least 1000 (so that some ladder unit applies). -/
def chosenValUnit (v : Nat) : Nat × String :=
  if v ≥ VAL_Trillion then (VAL_Trillion, "Trillion")
  else if v ≥ VAL_Billion then (VAL_Billion, "Billion")
  else if v ≥ VAL_Million then (VAL_Million, "Million")
  else (VAL_OneK, "K")

end SizeStr

namespace SizeStr

/-- The shared rendering tail produces the approximate form exactly when the
value is not an exact multiple of the chosen unit. Note the condition is not
(frac_val not zero): the C tests (frac_val or is_approx), and is_approx is
the inexactness test. -/
lemma render_cond (v U : Nat) (name : String) :
    render (v / U) (100 * (v % U) / U) (decide ((v / U) * U < v)) name =
      if v % U = 0 then toString (v / U) ++ " " ++ name
      else "~" ++ toString (v / U) ++ "." ++ frac2 (100 * (v % U) / U) ++ " " ++ name := by
  have hdm := Nat.div_add_mod v U
  rcases Nat.eq_zero_or_pos (v % U) with h0 | hpos
  · have hnot : ¬ (v / U) * U < v := by
      rw [Nat.mul_comm]
      omega
    simp [render, h0, hnot]
  · have hlt : (v / U) * U < v := by
      rw [Nat.mul_comm]
      omega
    have : v % U ≠ 0 := Nat.pos_iff_ne_zero.mp hpos
    simp [render, hlt, this]

/-- C7: the formatting utility reproduces the regression outputs of the spec
exactly: the byte ladder and the decimal ladder at 129, 1024, 1000, 2048,
1048576 and 1073741824. -/
theorem size_value_regression :
    size_to_str 129 = "129 bytes" ∧ value_to_str 129 = "" ∧
    size_to_str 1024 = "1 KiB" ∧ value_to_str 1024 = "~1.02 K" ∧
    size_to_str 1000 = "1000 bytes" ∧ value_to_str 1000 = "1 K" ∧
    size_to_str 2048 = "2 KiB" ∧ value_to_str 2048 = "~2.04 K" ∧
    size_to_str 1048576 = "1 MiB" ∧ value_to_str 1048576 = "~1.04 Million" ∧
    size_to_str 1073741824 = "1 GiB" ∧ value_to_str 1073741824 = "~1.07 Billion" := by
  decide

/-- C8 counterexample: at v = 1025 bytes the chosen unit is KiB and the
fraction percent floor(100 * (1025 mod 1024) / 1024) is 0, yet size_to_str
renders the approximate form with a tilde and a decimal point, not the
plain form the claim requires when the fraction percent is zero. -/
theorem size_to_str_1025_tilde_cex :
    SZ_KiB ≤ 1025 ∧ (chosenByteUnit 1025).1 = SZ_KiB ∧
    100 * (1025 % SZ_KiB) / SZ_KiB = 0 ∧
    size_to_str 1025 = "~1.00 KiB" ∧ size_to_str 1025 ≠ "1 KiB" := by
  decide

/-- C8 amended: for every value whose chosen unit U comes from the ladder
(U at most v), the formatter renders the approximate tilde form exactly when
v is not an exact multiple of U (not merely when the two-digit fraction
percent is non-zero), and otherwise the plain form without tilde or decimal
point. This holds for the byte ladder and the decimal ladder alike. -/
theorem formatter_tilde_iff_not_exact :
    (∀ v, SZ_KiB ≤ v →
      size_to_str v =
        (if v % (chosenByteUnit v).1 = 0
         then toString (v / (chosenByteUnit v).1) ++ " " ++ (chosenByteUnit v).2
         else "~" ++ toString (v / (chosenByteUnit v).1) ++ "." ++
              frac2 (100 * (v % (chosenByteUnit v).1) / (chosenByteUnit v).1) ++ " " ++
              (chosenByteUnit v).2)) ∧
    (∀ v, VAL_OneK ≤ v →
      value_to_str v =
        (if v % (chosenValUnit v).1 = 0
         then toString (v / (chosenValUnit v).1) ++ " " ++ (chosenValUnit v).2
         else "~" ++ toString (v / (chosenValUnit v).1) ++ "." ++
              frac2 (100 * (v % (chosenValUnit v).1) / (chosenValUnit v).1) ++ " " ++
              (chosenValUnit v).2)) := by
  constructor
  · intro v hv
    unfold size_to_str chosenByteUnit
    by_cases h1 : v ≥ SZ_TiB
    · rw [if_pos h1, if_pos h1]
      exact render_cond v SZ_TiB "TiB"
    · rw [if_neg h1, if_neg h1]
      by_cases h2 : v ≥ SZ_GiB
      · rw [if_pos h2, if_pos h2]
        exact render_cond v SZ_GiB "GiB"
      · rw [if_neg h2, if_neg h2]
        by_cases h3 : v ≥ SZ_MiB
        · rw [if_pos h3, if_pos h3]
          exact render_cond v SZ_MiB "MiB"
        · rw [if_neg h3, if_neg h3, if_pos hv]
          exact render_cond v SZ_KiB "KiB"
  · intro v hv
    unfold value_to_str chosenValUnit
    by_cases h1 : v ≥ VAL_Trillion
    · rw [if_pos h1, if_pos h1]
      exact render_cond v VAL_Trillion "Trillion"
    · rw [if_neg h1, if_neg h1]
      by_cases h2 : v ≥ VAL_Billion
      · rw [if_pos h2, if_pos h2]
        exact render_cond v VAL_Billion "Billion"
      · rw [if_neg h2, if_neg h2]
        by_cases h3 : v ≥ VAL_Million
        · rw [if_pos h3, if_pos h3]
          exact render_cond v VAL_Million "Million"
        · rw [if_neg h3, if_neg h3, if_pos hv]
          exact render_cond v VAL_OneK "K"

/-- Witness for the amended C8 theorem at the concrete input 2048. -/
theorem formatter_tilde_iff_not_exact_witness :
    SZ_KiB ≤ 2048 ∧
    size_to_str 2048 =
      (if 2048 % (chosenByteUnit 2048).1 = 0
       then toString (2048 / (chosenByteUnit 2048).1) ++ " " ++ (chosenByteUnit 2048).2
       else "~" ++ toString (2048 / (chosenByteUnit 2048).1) ++ "." ++
            frac2 (100 * (2048 % (chosenByteUnit 2048).1) / (chosenByteUnit 2048).1) ++ " " ++
            (chosenByteUnit 2048).2) :=
  ⟨by decide, formatter_tilde_iff_not_exact.1 2048 (by decide)⟩

end SizeStr

namespace L3Var

/-!
Embedding of l3.c (the variadic generation of the runtime, paired with the
top-level l3.h where L3_MAX_SLOTS is 32768).

The union l3_entry overlays struct l3_arguments (uint64_t args[3]) with
struct l3_footer (pid_t tid; uint32_t loc; const char *msg; uint64_t argN).
Both interpretations are 24 bytes, i.e. three 64-bit words: the footer packs
tid and loc into word 0 (tid in the low 32 bits, loc in the high 32 bits on
the little-endian targets the code supports), msg into word 1 and argN into
word 2. A slot is therefore modelled as three 64-bit words.
-/

def L3_MAX_SLOTS : Nat := 32768

/-- Modulus of a 64-bit machine word. -/
def U64 : Nat := 2 ^ 64

/-- Modulus of a 32-bit machine word. -/
def U32 : Nat := 2 ^ 32

/-- One 24-byte slot of the variadic generation, as its three 64-bit words. -/
structure L3_ENTRY where
  w0 : Nat
  w1 : Nat
  w2 : Nat
deriving Repr, DecidableEq

/-- Word j of a slot, the overlay position of body.args[j]. -/
def L3_ENTRY.word (e : L3_ENTRY) : Nat → Nat
  | 0 => e.w0
  | 1 => e.w1
  | _ => e.w2

/-- The footer interpretation of a slot: foot.tid and foot.loc share word 0
(tid low, loc high), foot.msg is word 1 and foot.argN is word 2. -/
def footerEntry (tid loc msg argN : Nat) : L3_ENTRY :=
  { w0 := tid % U32 + U32 * (loc % U32), w1 := msg, w2 := argN }

/-- The in-memory L3_LOG of l3.c: the 32-byte header (64-bit write cursor
idx, 64-bit fbase_addr, 32-bit slot_count, platform and loc_type bytes,
padding) followed by the slot array, modelled as a function from physical
slot numbers (0 .. L3_MAX_SLOTS-1) to slots. -/
structure L3_LOG where
  idx : Nat
  fbase_addr : Nat
  slot_count : Nat
  platform : Nat
  loc_type : Nat
  slots : Nat → L3_ENTRY

/-- The wrapping increment of the physical slot index in l3_log_fn:
if (++ofs >= L3_MAX_SLOTS) ofs -= L3_MAX_SLOTS. -/
def wrapInc (ofs : Nat) : Nat :=
  if ofs + 1 ≥ L3_MAX_SLOTS then ofs + 1 - L3_MAX_SLOTS else ofs + 1

/-- Writing one argument block into a slot: the inner loop of l3_log_fn
stores the next min(remaining, 3) variadic 64-bit words into
body.args[0..]. The caller always passes the next up-to-three arguments. -/
def writeWords (e : L3_ENTRY) : List Nat → L3_ENTRY
  | [] => e
  | [a] => { e with w0 := a }
  | [a, b] => { e with w0 := a, w1 := b }
  | a :: b :: c :: _ => { e with w0 := a, w1 := b, w2 := c }

/-- The argument-writing loop of l3_log_fn:
for (i = nargs; i > 0; i -= 3) write up to three words into the slot at ofs,
then advance ofs with wraparound. The loop body runs exactly
ceil(nargs/3) times; the first parameter counts the remaining iterations and
equals ceil(length/3) at every call. Returns the updated slot array and the
slot index left in ofs, where the footer is written next. -/
def writeArgBlocks : Nat → (Nat → L3_ENTRY) → Nat → List Nat → (Nat → L3_ENTRY) × Nat
  | 0, slots, ofs, _ => (slots, ofs)
  | b + 1, slots, ofs, args =>
      writeArgBlocks b
        (fun s => if s = ofs then writeWords (slots s) (args.take 3) else slots s)
        (wrapInc ofs) (args.drop 3)

/-- Embedding of l3_log_fn from l3.c. args_per_block is
sizeof(L3_ENTRY)/sizeof(uint64_t) = 3 and entryBlocks =
1 + (nargs + args_per_block - 1)/args_per_block. The function reserves
entryBlocks slots with one update of the 64-bit cursor (the atomic
fetch-and-add and the single-threaded plain increment both return the old
cursor and add entryBlocks, so one sequential transition models either
branch), truncates the returned start offset to uint32_t and reduces it
modulo L3_MAX_SLOTS, writes the argument blocks, then writes the footer
(tid, loc, msg, argN = nargs) into the slot the block loop stopped at.
The thread id tid stands for the thread-local l3_my_tid. -/
def l3_log_fn (msg loc tid : Nat) (args : List Nat) (log : L3_LOG) : L3_LOG :=
  let args_per_block := 3
  let entryBlocks := 1 + (args.length + args_per_block - 1) / args_per_block
  let ofs0 := (log.idx % U32) % L3_MAX_SLOTS
  let idx2 := (log.idx + entryBlocks) % U64
  let r := writeArgBlocks ((args.length + 2) / 3) log.slots ofs0 args
  let slots2 := fun s => if s = r.2 then footerEntry tid loc msg args.length else r.1 s
  { log with idx := idx2, slots := slots2 }

end L3Var

namespace L3Var

lemma wrapInc_eq (ofs : Nat) (h : ofs < L3_MAX_SLOTS) :
    wrapInc ofs = (ofs + 1) % L3_MAX_SLOTS := by
  unfold wrapInc L3_MAX_SLOTS at *
  split <;> omega

lemma wrapInc_lt (ofs : Nat) (h : ofs < L3_MAX_SLOTS) : wrapInc ofs < L3_MAX_SLOTS := by
  unfold wrapInc L3_MAX_SLOTS at *
  split <;> omega

lemma add_mod_cap_ne (ofs m : Nat) (h1 : 0 < m) (h2 : m < L3_MAX_SLOTS) :
    (ofs + m) % L3_MAX_SLOTS ≠ ofs := by
  unfold L3_MAX_SLOTS at *
  omega

lemma add_mod_cap_ne2 (ofs j1 j2 : Nat) (h : j1 < j2) (h2 : j2 < L3_MAX_SLOTS) :
    (ofs + j1) % L3_MAX_SLOTS ≠ (ofs + j2) % L3_MAX_SLOTS := by
  unfold L3_MAX_SLOTS at *
  omega

lemma writeWords_word (e : L3_ENTRY) (l : List Nat) (k : Nat) (hk : k < l.length)
    (h3 : k < 3) : (writeWords e l).word k = l.getD k 0 := by
  rcases l with _ | ⟨a, _ | ⟨b, _ | ⟨c, t⟩⟩⟩ <;>
    interval_cases k <;>
      simp_all [writeWords, L3_ENTRY.word, List.getD]

lemma getD_take3 (l : List Nat) (k : Nat) (h3 : k < 3) :
    (l.take 3).getD k 0 = l.getD k 0 := by
  rcases l with _ | ⟨a, _ | ⟨b, _ | ⟨c, t⟩⟩⟩ <;>
    interval_cases k <;>
      simp [List.getD]

lemma getD_drop3 (l : List Nat) (m : Nat) :
    (l.drop 3).getD m 0 = l.getD (m + 3) 0 := by
  rcases l with _ | ⟨a, _ | ⟨b, _ | ⟨c, t⟩⟩⟩ <;>
    simp [List.getD]

/-- Main loop invariant of the argument-writing loop of l3_log_fn, taken
with b = ceil(length/3) remaining iterations from any in-range start slot:
the loop stops at slot (ofs + b) mod capacity; argument k of the remaining
list ends up in word (k mod 3) of slot (ofs + k / 3) mod capacity; and every
slot outside the written span keeps its previous contents. -/
lemma writeArgBlocks_spec :
    ∀ (b : Nat) (slots : Nat → L3_ENTRY) (ofs : Nat) (args : List Nat),
      ofs < L3_MAX_SLOTS → b = (args.length + 2) / 3 → b < L3_MAX_SLOTS →
      (writeArgBlocks b slots ofs args).2 = (ofs + b) % L3_MAX_SLOTS
      ∧ (∀ k, k < args.length →
          ((writeArgBlocks b slots ofs args).1 ((ofs + k / 3) % L3_MAX_SLOTS)).word (k % 3)
            = args.getD k 0)
      ∧ (∀ s, (∀ j, j < b → s ≠ (ofs + j) % L3_MAX_SLOTS) →
          (writeArgBlocks b slots ofs args).1 s = slots s) := by
  intro b
  induction b with
  | zero =>
    intro slots ofs args hofs hb _
    refine ⟨by simpa [writeArgBlocks] using (Nat.mod_eq_of_lt hofs).symm, ?_, ?_⟩
    · intro k hk
      omega
    · intro s _
      simp [writeArgBlocks]
  | succ b ih =>
    intro slots ofs args hofs hb hcap
    have hlen : 1 ≤ args.length := by omega
    have hb' : b = ((args.drop 3).length + 2) / 3 := by
      simp only [List.length_drop]
      omega
    have hofs' : wrapInc ofs < L3_MAX_SLOTS := wrapInc_lt ofs hofs
    have hwrap : wrapInc ofs = (ofs + 1) % L3_MAX_SLOTS := wrapInc_eq ofs hofs
    have hmod : ∀ j : Nat, (wrapInc ofs + j) % L3_MAX_SLOTS = (ofs + (j + 1)) % L3_MAX_SLOTS := by
      intro j
      rw [hwrap, Nat.mod_add_mod]
      ring_nf
    obtain ⟨ih1, ih2, ih3⟩ :=
      ih (fun s => if s = ofs then writeWords (slots s) (args.take 3) else slots s)
        (wrapInc ofs) (args.drop 3) hofs' hb' (by omega)
    have hstep :
        writeArgBlocks (b + 1) slots ofs args =
          writeArgBlocks b
            (fun s => if s = ofs then writeWords (slots s) (args.take 3) else slots s)
            (wrapInc ofs) (args.drop 3) := rfl
    refine ⟨?_, ?_, ?_⟩
    · rw [hstep, ih1, hmod b]
    · intro k hk
      rw [hstep]
      by_cases hk3 : k < 3
      · have hdiv : k / 3 = 0 := by omega
        have hsl : ((ofs + k / 3) % L3_MAX_SLOTS) = ofs := by
          rw [hdiv]
          simpa using Nat.mod_eq_of_lt hofs
        rw [hsl]
        have hframe := ih3 ofs (by
          intro j hj
          rw [hmod j]
          exact fun heq => add_mod_cap_ne ofs (j + 1) (by omega) (by omega) heq.symm)
        have hif : (if ofs = ofs then writeWords (slots ofs) (List.take 3 args)
            else slots ofs) = writeWords (slots ofs) (List.take 3 args) := if_pos rfl
        have hkm : k % 3 = k := Nat.mod_eq_of_lt hk3
        rw [hframe, hif, hkm, writeWords_word _ _ k (by
          simp only [List.length_take]
          omega) hk3]
        exact getD_take3 args k hk3
      · have hk' : k - 3 < (args.drop 3).length := by
          simp only [List.length_drop]
          omega
        have := ih2 (k - 3) hk'
        rw [hmod ((k - 3) / 3)] at this
        have hdiv : (k - 3) / 3 + 1 = k / 3 := by omega
        have hmod3 : (k - 3) % 3 = k % 3 := by omega
        rw [hdiv, hmod3] at this
        rw [this, getD_drop3]
        congr 1
        omega
    · intro s hs
      rw [hstep, ih3 s (by
        intro j hj
        rw [hmod j]
        exact hs (j + 1) (by omega))]
      have : s ≠ ofs := by
        have := hs 0 (by omega)
        simpa [Nat.mod_eq_of_lt hofs] using this
      simp [this]

lemma ofs0_eq (idx : Nat) : (idx % U32) % L3_MAX_SLOTS = idx % L3_MAX_SLOTS :=
  Nat.mod_mod_of_dvd idx ⟨131072, rfl⟩

/-- The cursor effect of one l3_log_fn call: a single update adds
entryBlocks = 1 + ceil(nargs/3) to the 64-bit write cursor. -/
lemma l3_log_fn_idx (msg loc tid : Nat) (args : List Nat) (log : L3_LOG) :
    (l3_log_fn msg loc tid args log).idx =
      (log.idx + (1 + (args.length + 2) / 3)) % U64 := rfl

/-- C1: a variadic append with argCount arguments (0..9) reserves exactly
1 + ceil(argCount/3) slots with a single update of the shared 64-bit write
cursor; the arguments are written in call order, at most three 64-bit words
per argument block, each block advancing and wrapping the physical slot
index; the footer (thread id, locId, message pointer, argCount) is written
into the next slot modulo capacity, which is the logically-last slot of the
reserved span; and no slot outside the reserved span is touched. -/
theorem l3_log_fn_variadic_entry_layout (msg loc tid : Nat) (args : List Nat)
    (log : L3_LOG) (hn : args.length ≤ 9) :
    (l3_log_fn msg loc tid args log).idx =
        (log.idx + (1 + (args.length + 2) / 3)) % U64
    ∧ (∀ k, k < args.length →
        ((l3_log_fn msg loc tid args log).slots
            ((log.idx % L3_MAX_SLOTS + k / 3) % L3_MAX_SLOTS)).word (k % 3) = args.getD k 0)
    ∧ (l3_log_fn msg loc tid args log).slots
          ((log.idx % L3_MAX_SLOTS + (args.length + 2) / 3) % L3_MAX_SLOTS)
        = footerEntry tid loc msg args.length
    ∧ (∀ s, (∀ j, j ≤ (args.length + 2) / 3 →
          s ≠ (log.idx % L3_MAX_SLOTS + j) % L3_MAX_SLOTS) →
        (l3_log_fn msg loc tid args log).slots s = log.slots s) := by
  have hofs : log.idx % L3_MAX_SLOTS < L3_MAX_SLOTS :=
    Nat.mod_lt _ (by decide)
  have hbcap : (args.length + 2) / 3 < L3_MAX_SLOTS := by
    have : L3_MAX_SLOTS = 32768 := rfl
    omega
  obtain ⟨h1, h2, h3⟩ := writeArgBlocks_spec ((args.length + 2) / 3) log.slots
    (log.idx % L3_MAX_SLOTS) args hofs rfl hbcap
  have hslots :
      (l3_log_fn msg loc tid args log).slots =
        fun s =>
          if s = (writeArgBlocks ((args.length + 2) / 3) log.slots
              (log.idx % L3_MAX_SLOTS) args).2
          then footerEntry tid loc msg args.length
          else (writeArgBlocks ((args.length + 2) / 3) log.slots
              (log.idx % L3_MAX_SLOTS) args).1 s := by
    show (fun s => if s = (writeArgBlocks _ log.slots ((log.idx % U32) % L3_MAX_SLOTS) args).2
          then _ else _) = _
    rw [ofs0_eq]
  refine ⟨rfl, ?_, ?_, ?_⟩
  · intro k hk
    rw [hslots]
    simp only
    rw [h1, if_neg (by
      have hk3 : k / 3 < (args.length + 2) / 3 := by omega
      exact add_mod_cap_ne2 _ _ _ hk3 hbcap)]
    exact h2 k hk
  · rw [hslots]
    simp only
    rw [h1, if_pos rfl]
  · intro s hs
    rw [hslots]
    simp only
    rw [h1, if_neg (hs _ (Nat.le_refl _)), h3 s (fun j hj => hs j (by omega))]

/-- A concrete log state for instantiating the layout theorem: the write
cursor sits two slots before the end of the ring, so a four-argument entry
wraps around the capacity boundary. -/
def demoLog : L3_LOG :=
  { idx := 32766, fbase_addr := 0, slot_count := L3_MAX_SLOTS, platform := 1,
    loc_type := 0, slots := fun _ => ⟨0, 0, 0⟩ }

/-- Witness for the variadic layout theorem: a four-argument append starting
at physical slot 32766 writes its second argument block into slot 32767 and
its footer into slot 0 after wrapping. -/
theorem l3_log_fn_variadic_entry_layout_witness :
    ([11, 22, 33, 44] : List Nat).length ≤ 9 ∧
    ((l3_log_fn 7 5 9 [11, 22, 33, 44] demoLog).slots 32767).word 0 = 44 ∧
    (l3_log_fn 7 5 9 [11, 22, 33, 44] demoLog).slots 0 = footerEntry 9 5 7 4 :=
  ⟨by decide,
   (l3_log_fn_variadic_entry_layout 7 5 9 [11, 22, 33, 44] demoLog (by decide)).2.1
     3 (by decide),
   (l3_log_fn_variadic_entry_layout 7 5 9 [11, 22, 33, 44] demoLog (by decide)).2.2.1⟩

/-!
Byte-layout sizes of the two generations, computed from the struct
declarations (all targets supported by the code are LP64, so pid_t and
uint32_t are 4 bytes, pointers and uint64_t are 8 bytes, and both structs
have 8-byte alignment with no interior padding at these field offsets).
-/

/-- sizeof(union l3_entry) in the variadic l3.c: the larger of struct
l3_arguments (uint64_t args[3]) and struct l3_footer (pid_t + uint32_t +
pointer + uint64_t), both 24 bytes. -/
def sizeof_L3_ENTRY : Nat := max (3 * 8) (4 + 4 + 8 + 8)

/-- sizeof(struct l3_log) in the variadic l3.c: idx (8) + fbase_addr (8) +
slot_count (4) + pad2 (2) + platform (1) + loc_type (1) + pad1 (8); the
trailing flexible slots[0] array contributes nothing. This is also
offsetof(L3_LOG, slots), the header size. -/
def sizeof_L3_LOG : Nat := 8 + 8 + 4 + 2 + 1 + 1 + 8

/-- fsize in l3_init of the variadic l3.c:
sizeof(L3_LOG) + L3_MAX_SLOTS * sizeof(L3_ENTRY). This is the length passed
to mmap, and the offset the file is extended to. -/
def l3_init_fsize : Nat := sizeof_L3_LOG + L3_MAX_SLOTS * sizeof_L3_ENTRY

/-- Size in bytes of a fresh backing file after l3_init(path) in the
variadic l3.c: the code seeks to offset fsize and writes one sentinel byte
there, which leaves the file fsize + 1 bytes long. -/
def l3_init_file_size : Nat := l3_init_fsize + 1

/-- Length passed to munmap by l3_deinit in the variadic l3.c:
sizeof(*l3_log) = sizeof(L3_LOG), the 32-byte header only, because the slot
array is a flexible array member of the struct. -/
def l3_deinit_unmap_length : Nat := sizeof_L3_LOG

end L3Var

namespace L3Fixed

/-!
Embedding of src/l3.c (the fixed two-argument generation, paired with
include/l3.h where L3_MAX_SLOTS is 16384).
-/

def L3_MAX_SLOTS : Nat := 16384

/-- sizeof(struct l3_entry) in src/l3.c: pid_t tid (4) + uint32_t loc (4) +
const char *msg (8) + uint64_t arg1 (8) + uint64_t arg2 (8). The source
asserts this equals L3_LOG_ENTRY_SZ = 4 * sizeof(uint64_t). -/
def sizeof_L3_ENTRY : Nat := 4 + 4 + 8 + 8 + 8

/-- offsetof(L3_LOG, slots) in src/l3.c: idx (8) + fbase_addr (8) + pad0 (4)
+ log_size (2) + platform (1) + loc_type (1) + pad1 (8). The source asserts
this equals sizeof(L3_ENTRY). -/
def header_size : Nat := 8 + 8 + 4 + 2 + 1 + 1 + 8

/-- Size in bytes of a fresh backing file after l3_init(path) in src/l3.c:
the code seeks to offset sizeof(L3_LOG) = header + slots and writes one
sentinel byte there, leaving the file one byte longer. -/
def l3_init_file_size : Nat := (header_size + L3_MAX_SLOTS * sizeof_L3_ENTRY) + 1

end L3Fixed

namespace L3Var

/-- C2 counterexample: in the variadic generation one slot is 24 bytes, not
32, and the 32-byte header therefore does not occupy one slot's size; the
claimed invariant fails for that generation. -/
theorem variadic_slot_width_cex :
    ¬ (L3Fixed.sizeof_L3_ENTRY = 32 ∧ L3Fixed.header_size = L3Fixed.sizeof_L3_ENTRY ∧
       sizeof_L3_ENTRY = 32 ∧ sizeof_L3_LOG = sizeof_L3_ENTRY) := by
  decide

/-- C2 amended: in the fixed two-argument generation one slot is exactly 32
bytes and the header occupies exactly one slot (the static assertions of
src/l3.c); in the variadic generation the header is 32 bytes but a slot is
only 24 bytes, so header and slot sizes coincide only in the fixed
generation. -/
theorem slot_and_header_sizes :
    L3Fixed.sizeof_L3_ENTRY = 32 ∧ L3Fixed.header_size = L3Fixed.sizeof_L3_ENTRY ∧
    sizeof_L3_ENTRY = 24 ∧ sizeof_L3_LOG = 32 ∧ sizeof_L3_LOG ≠ sizeof_L3_ENTRY := by
  decide

/-- C4 counterexample: in neither generation does a successful l3_init(path)
leave the backing file at exactly header-size + capacity times 32 bytes: the
sentinel byte is written at that offset, extending the file one byte past
it, and the variadic generation uses 24-byte slots besides. -/
theorem init_file_size_cex :
    L3Fixed.l3_init_file_size ≠ L3Fixed.header_size + L3Fixed.L3_MAX_SLOTS * 32 ∧
    l3_init_file_size ≠ sizeof_L3_LOG + L3_MAX_SLOTS * 32 := by
  decide

/-- C4 amended: a successful l3_init(path) on a fresh file materializes
exactly header-size + capacity times slot-size + 1 bytes, the final byte
being the positioned sentinel write at offset fsize; the slot size is 32
bytes in the fixed generation and 24 bytes in the variadic generation. -/
theorem init_file_size_exact :
    L3Fixed.l3_init_file_size =
        (L3Fixed.header_size + L3Fixed.L3_MAX_SLOTS * L3Fixed.sizeof_L3_ENTRY) + 1 ∧
    l3_init_file_size = (sizeof_L3_LOG + L3_MAX_SLOTS * sizeof_L3_ENTRY) + 1 ∧
    L3Fixed.l3_init_file_size = 524321 ∧ l3_init_file_size = 786465 := by
  decide

/-- C5: l3_deinit of the variadic l3.c passes sizeof(*l3_log) to munmap,
which is only the 32-byte header because slots is a flexible array member,
while l3_init mapped fsize = 786464 bytes; the deinit call therefore does
not unmap the entire mapped region. In the fixed generation the identical
call pattern did unmap everything, since there sizeof(*l3_log) includes the
whole slot array. -/
theorem deinit_unmap_shorter_than_mapped :
    l3_deinit_unmap_length = 32 ∧ l3_init_fsize = 786464 ∧
    l3_deinit_unmap_length < l3_init_fsize := by
  decide

end L3Var

namespace L3Var

/-!
Embedding of l3_init and its failure paths from the variadic l3.c. The OS
calls (open, lseek, write, mmap, dladdr) are modelled by an environment
recording whether each succeeds and which errno a failing call sets; errno
is tracked as the value set during the call, if any. The global l3_log
pointer is NULL until first assigned, holds MAP_FAILED when mmap fails, and
otherwise points at the mapped region, whose prior byte content is the mem
argument (all zeros for a freshly created file).
-/

def L3_DLADDR_NOT_FOUND_ERRNO : Nat := 1234

inductive OsKind
  | linux
  | apple
deriving DecidableEq, Repr

structure OsEnv where
  openOk : Bool
  openErrno : Nat
  lseekOk : Bool
  lseekErrno : Nat
  writeOk : Bool
  writeErrno : Nat
  mmapOk : Bool
  mmapErrno : Nat
  dladdrOk : Bool
  dlBase : Nat

/-- The global l3_log pointer. -/
inductive LogPtr
  | null
  | mapFailed
  | mapped (log : L3_LOG)

structure InitResult where
  ret : Int
  errno : Option Nat
  logPtr : LogPtr

/-- The loc_type header byte recorded by l3_init: the build-time encoding
scheme, checking L3_LOC_ELF_ENABLED before L3_LOC_ENABLED as the source
does. -/
def locTypeOf (elf basic : Bool) : Nat :=
  if elf then 2 else if basic then 1 else 0

/-- Embedding of l3_init from the variadic l3.c. With a path, a failing
open, lseek or sentinel write returns -1 with that call's errno, leaving the
global pointer as it was; a failing mmap returns -1 leaving the pointer at
MAP_FAILED. After a successful mmap the code zeroes idx and records
slot_count, then resolves the load base: on Linux a dladdr failure sets
errno to the 1234 sentinel and returns -1, leaving fbase_addr, platform and
loc_type unset in the mapped header; on Apple getBaseAddress sets errno to
1234 and returns (intptr_t)-1 on failure, but l3_init ignores that result,
stores it as the load base and continues to return 0. -/
def l3_init (os : OsKind) (hasPath : Bool) (env : OsEnv) (elf basic : Bool)
    (prev : LogPtr) (mem : L3_LOG) : InitResult :=
  if hasPath && !env.openOk then ⟨-1, some env.openErrno, prev⟩
  else if hasPath && !env.lseekOk then ⟨-1, some env.lseekErrno, prev⟩
  else if hasPath && !env.writeOk then ⟨-1, some env.writeErrno, prev⟩
  else if !env.mmapOk then ⟨-1, some env.mmapErrno, .mapFailed⟩
  else
    let log0 : L3_LOG := { mem with idx := 0, slot_count := L3_MAX_SLOTS }
    match os with
    | .apple =>
        if env.dladdrOk then
          ⟨0, none, .mapped
            { log0 with
              fbase_addr := env.dlBase % U64,
              platform := 2,
              loc_type := locTypeOf elf basic }⟩
        else
          ⟨0, some L3_DLADDR_NOT_FOUND_ERRNO, .mapped
            { log0 with
              fbase_addr := U64 - 1,
              platform := 2,
              loc_type := locTypeOf elf basic }⟩
    | .linux =>
        if !env.dladdrOk then
          ⟨-1, some L3_DLADDR_NOT_FOUND_ERRNO, .mapped log0⟩
        else
          ⟨0, none, .mapped
            { log0 with
              fbase_addr := env.dlBase % U64,
              platform := 1,
              loc_type := locTypeOf elf basic }⟩

/-- The zero-filled view a fresh backing file presents to mmap. -/
def zeroMem : L3_LOG :=
  { idx := 0, fbase_addr := 0, slot_count := 0, platform := 0, loc_type := 0,
    slots := fun _ => ⟨0, 0, 0⟩ }

/-- An environment where every filesystem call succeeds and only the
dynamic-symbol introspection fails. -/
def envDladdrFail : OsEnv :=
  { openOk := true, openErrno := 0, lseekOk := true, lseekErrno := 0,
    writeOk := true, writeErrno := 0, mmapOk := true, mmapErrno := 0,
    dladdrOk := false, dlBase := 0 }

/-- C6 counterexample: on the Apple platform a load-base resolution failure
sets errno to the 1234 sentinel but l3_init still returns 0, not -1, so the
claim does not hold on every supported platform. -/
theorem apple_dladdr_failure_returns_zero_cex :
    (l3_init .apple true envDladdrFail false false .null zeroMem).ret = 0 ∧
    (l3_init .apple true envDladdrFail false false .null zeroMem).errno =
      some L3_DLADDR_NOT_FOUND_ERRNO :=
  ⟨rfl, rfl⟩

/-- C6 amended: on Linux, l3_init returns -1 with errno set to the 1234
sentinel exactly when the mmap stage was reached and dladdr failed, and
(given that the OS never reports 1234 as an ordinary error code) errno is
1234 only in that case; on the Apple platform, however, a load-base
resolution failure sets errno to 1234 but l3_init ignores the failed
getBaseAddress result and returns 0. -/
theorem init_errno_sentinel (hasPath : Bool) (env : OsEnv) (elf basic : Bool)
    (prev : LogPtr) (mem : L3_LOG)
    (h1 : env.openErrno ≠ 1234) (h2 : env.lseekErrno ≠ 1234)
    (h3 : env.writeErrno ≠ 1234) (h4 : env.mmapErrno ≠ 1234) :
    ((l3_init .linux hasPath env elf basic prev mem).errno = some 1234 ↔
        ((hasPath = true → env.openOk = true ∧ env.lseekOk = true ∧ env.writeOk = true) ∧
         env.mmapOk = true ∧ env.dladdrOk = false))
    ∧ ((l3_init .linux hasPath env elf basic prev mem).errno = some 1234 →
        (l3_init .linux hasPath env elf basic prev mem).ret = -1)
    ∧ ((hasPath = true → env.openOk = true ∧ env.lseekOk = true ∧ env.writeOk = true) →
        env.mmapOk = true → env.dladdrOk = false →
        (l3_init .apple hasPath env elf basic prev mem).ret = 0 ∧
        (l3_init .apple hasPath env elf basic prev mem).errno = some 1234) := by
  obtain ⟨o, oe, l, le, w, we, m, me, d, db⟩ := env
  cases hasPath <;> cases o <;> cases l <;> cases w <;> cases m <;> cases d <;>
    simp_all [l3_init, L3_DLADDR_NOT_FOUND_ERRNO]

/-- Witness for the errno-sentinel theorem, at an environment where only
dladdr fails. -/
theorem init_errno_sentinel_witness :
    envDladdrFail.openErrno ≠ 1234 ∧
    ((l3_init .linux true envDladdrFail false false .null zeroMem).errno = some 1234 →
      (l3_init .linux true envDladdrFail false false .null zeroMem).ret = -1) :=
  ⟨by decide,
   (init_errno_sentinel true envDladdrFail false false .null zeroMem
     (by decide) (by decide) (by decide) (by decide)).2.1⟩

/-- C10: when l3_init with a path succeeds through mmap but then fails
load-base resolution on Linux, it returns -1 without rolling back: the
global log pointer is left pointing at the new mapping, whose write cursor
is already zeroed and whose slot count is already recorded, and a subsequent
append operates on that partially initialized log (here: advances its cursor
from zero) rather than crashing on an unset pointer. -/
theorem init_partial_on_dladdr_failure (env : OsEnv) (elf basic : Bool)
    (prev : LogPtr) (mem : L3_LOG)
    (ho : env.openOk = true) (hl : env.lseekOk = true) (hw : env.writeOk = true)
    (hm : env.mmapOk = true) (hd : env.dladdrOk = false) :
    (l3_init .linux true env elf basic prev mem).ret = -1 ∧
    (l3_init .linux true env elf basic prev mem).errno = some L3_DLADDR_NOT_FOUND_ERRNO ∧
    (l3_init .linux true env elf basic prev mem).logPtr =
      .mapped { mem with idx := 0, slot_count := L3_MAX_SLOTS } ∧
    (∀ msg loc tid args,
      (l3_log_fn msg loc tid args { mem with idx := 0, slot_count := L3_MAX_SLOTS }).idx
        = (1 + (args.length + 2) / 3) % U64) := by
  refine ⟨?_, ?_, ?_, ?_⟩
  · simp [l3_init, ho, hl, hw, hm, hd]
  · simp [l3_init, ho, hl, hw, hm, hd]
  · simp [l3_init, ho, hl, hw, hm, hd]
  · intro msg loc tid args
    rw [l3_log_fn_idx]
    norm_num

/-- Witness for the no-rollback theorem at a concrete environment and a
zeroed fresh mapping. -/
theorem init_partial_on_dladdr_failure_witness :
    envDladdrFail.openOk = true ∧
    (l3_init .linux true envDladdrFail false false .null zeroMem).ret = -1 ∧
    (l3_log_fn 7 5 9 [11, 22, 33, 44]
        { zeroMem with idx := 0, slot_count := L3_MAX_SLOTS }).idx = 3 :=
  ⟨by decide,
   (init_partial_on_dladdr_failure envDladdrFail false false .null zeroMem
     rfl rfl rfl rfl rfl).1,
   (init_partial_on_dladdr_failure envDladdrFail false false .null zeroMem
     rfl rfl rfl rfl rfl).2.2.2 7 5 9 [11, 22, 33, 44]⟩

end L3Var

namespace L3Fixed

/-- One 32-byte slot of the fixed two-argument generation: struct l3_entry
of src/l3.c, holding tid, loc, the message-literal pointer and the two
64-bit arguments. -/
structure L3_ENTRY where
  tid : Nat
  loc : Nat
  msg : Nat
  arg1 : Nat
  arg2 : Nat

/-- The mutable state of the fixed-generation log that the append path
touches: the 64-bit write cursor idx and the slot array (the remaining
header fields are written only by l3_init and never read on this path). -/
structure L3_LOG where
  idx : Nat
  slots : Nat → L3_ENTRY

/-- Embedding of l3_log_mmap from src/l3.c: one atomic fetch-and-add grants
the old 64-bit cursor value and advances the cursor by exactly one; the
granted value modulo L3_MAX_SLOTS selects the slot, into which tid, loc
(only when the build has L3_LOC_ENABLED; otherwise the field is left
untouched), msg, arg1 and arg2 are stored. tid stands for l3_mytid(). -/
def l3_log_mmap (msg arg1 arg2 loc tid : Nat) (locEnabled : Bool)
    (log : L3_LOG) : L3_LOG :=
  let i := log.idx % L3_MAX_SLOTS
  let e2 : L3_ENTRY :=
    { tid := tid, loc := if locEnabled then loc else (log.slots i).loc,
      msg := msg, arg1 := arg1, arg2 := arg2 }
  { idx := (log.idx + 1) % L3Var.U64,
    slots := fun s => if s = i then e2 else log.slots s }

/-- One append call of a trace: the calling thread (whose cached thread id
is tid) and the payload it logs. Any interleaving of T threads' fixed-form
appends is a list of these, ordered by the total order of their atomic
fetch-and-add operations on the shared cursor. -/
structure Call where
  tid : Nat
  msg : Nat
  arg1 : Nat
  arg2 : Nat
  loc : Nat

/-- Execution of a trace of fixed-form appends against the shared log. -/
def runAppends (locEnabled : Bool) (log : L3_LOG) : List Call → L3_LOG
  | [] => log
  | c :: rest =>
      runAppends locEnabled (l3_log_mmap c.msg c.arg1 c.arg2 c.loc c.tid locEnabled log) rest

/-- The slot reservations granted along a trace: each append receives the
old cursor value returned by its fetch-and-add. -/
def grants (locEnabled : Bool) (log : L3_LOG) : List Call → List Nat
  | [] => []
  | c :: rest =>
      log.idx ::
        grants locEnabled (l3_log_mmap c.msg c.arg1 c.arg2 c.loc c.tid locEnabled log) rest

/-- C3: every fixed two-argument append advances the shared 64-bit write
cursor by exactly one via its single fetch-and-add, so for any trace of N
appends, interleaved from any number of threads, the final cursor equals the
initial cursor plus N modulo 2 to the 64, the granted reservations are
exactly the N consecutive cursor values, and from a fresh log no reservation
is lost or granted twice as long as N does not exceed 2 to the 64. -/
theorem fixed_append_advances_cursor_by_one (locEnabled : Bool) :
    (∀ (msg arg1 arg2 loc tid : Nat) (log : L3_LOG),
        (l3_log_mmap msg arg1 arg2 loc tid locEnabled log).idx =
          (log.idx + 1) % L3Var.U64)
    ∧ (∀ (calls : List Call) (log : L3_LOG), log.idx < L3Var.U64 →
        (runAppends locEnabled log calls).idx = (log.idx + calls.length) % L3Var.U64
        ∧ grants locEnabled log calls =
            (List.range calls.length).map (fun k => (log.idx + k) % L3Var.U64))
    ∧ (∀ (calls : List Call), calls.length ≤ L3Var.U64 →
        ∀ (log : L3_LOG), log.idx = 0 → (grants locEnabled log calls).Nodup) := by
  have key : ∀ (calls : List Call) (log : L3_LOG), log.idx < L3Var.U64 →
      (runAppends locEnabled log calls).idx = (log.idx + calls.length) % L3Var.U64
      ∧ grants locEnabled log calls =
          (List.range calls.length).map (fun k => (log.idx + k) % L3Var.U64) := by
    intro calls
    induction calls with
    | nil =>
      intro log h
      simp [runAppends, grants, Nat.mod_eq_of_lt h]
    | cons c rest ih =>
      intro log h
      have hlt : (l3_log_mmap c.msg c.arg1 c.arg2 c.loc c.tid locEnabled log).idx < L3Var.U64 := by
        show (log.idx + 1) % L3Var.U64 < L3Var.U64
        exact Nat.mod_lt _ (by norm_num [L3Var.U64])
      obtain ⟨ih1, ih2⟩ := ih (l3_log_mmap c.msg c.arg1 c.arg2 c.loc c.tid locEnabled log) hlt
      constructor
      · show (runAppends locEnabled (l3_log_mmap c.msg c.arg1 c.arg2 c.loc c.tid locEnabled log) rest).idx = _
        rw [ih1]
        show ((log.idx + 1) % L3Var.U64 + rest.length) % L3Var.U64 = _
        rw [Nat.mod_add_mod]
        congr 1
        simp [List.length_cons]
        ring
      · show log.idx :: grants locEnabled _ rest = _
        rw [ih2]
        rw [List.length_cons, List.range_succ_eq_map, List.map_cons, List.map_map]
        congr 1
        · simpa using (Nat.mod_eq_of_lt h).symm
        · apply List.map_congr_left
          intro k _
          show ((log.idx + 1) % L3Var.U64 + k) % L3Var.U64 = _
          rw [Nat.mod_add_mod]
          simp [Function.comp]
          ring_nf
  refine ⟨fun _ _ _ _ _ _ => rfl, key, ?_⟩
  intro calls hlen log h0
  obtain ⟨_, h2⟩ := key calls log (by rw [h0]; norm_num [L3Var.U64])
  rw [h2]
  have : ∀ k ∈ List.range calls.length, (log.idx + k) % L3Var.U64 = k := by
    intro k hk
    rw [List.mem_range] at hk
    rw [h0, Nat.zero_add]
    exact Nat.mod_eq_of_lt (by omega)
  rw [List.map_congr_left this]
  simpa using List.nodup_range calls.length


/-- A fresh fixed-generation log and a short three-call trace from two
threads, used to instantiate the cursor theorem. -/
def zeroFixedLog : L3_LOG := { idx := 0, slots := fun _ => ⟨0, 0, 0, 0, 0⟩ }

def demoCalls : List Call :=
  [{ tid := 1, msg := 10, arg1 := 0, arg2 := 0, loc := 0 },
   { tid := 2, msg := 20, arg1 := 1, arg2 := 2, loc := 0 },
   { tid := 1, msg := 30, arg1 := 3, arg2 := 4, loc := 0 }]

/-- Witness for the cursor theorem: three appends from a fresh log leave the
cursor at 3 modulo 2 to the 64. -/
theorem fixed_append_advances_cursor_by_one_witness :
    zeroFixedLog.idx < L3Var.U64 ∧
    (runAppends false zeroFixedLog demoCalls).idx =
      (zeroFixedLog.idx + demoCalls.length) % L3Var.U64 :=
  ⟨by norm_num [zeroFixedLog, L3Var.U64],
   ((fixed_append_advances_cursor_by_one false).2.1 demoCalls zeroFixedLog
     (by norm_num [zeroFixedLog, L3Var.U64])).1⟩

end L3Fixed

namespace SvMsg

/-!
Embedding of the client-tracking logic of
use-cases/client-server-msgs-perf/svmsg_file_server.c: the fixed 64-entry
ActiveClients table, the NumActiveClients / NumActiveClientsHWM counters,
and the dispatch of svr_proc_process_msg over request types.
-/

def MAX_CLIENTS : Nat := 64

def REQ_MT_INIT : Nat := 1
def REQ_MT_INCR : Nat := 2
def REQ_MT_SET_THROUGHPUT : Nat := 3
def REQ_MT_QUIT : Nat := 4
def REQ_MT_EXIT : Nat := 5

/-- One Client_info record of the ActiveClients table. -/
structure Client_info where
  clientId : Int
  client_idx : Int
  client_ctr : Int
  num_ops : Nat
  throughput : Int
  last_mtype : Nat
deriving Repr, DecidableEq

/-- A requestMsg as the server dispatch reads it. -/
structure Request where
  mtype : Nat
  clientId : Int
  client_idx : Int
  counter : Int

/-- The server state the dispatch mutates: the high-water mark
NumActiveClientsHWM, the live count NumActiveClients, and the ActiveClients
table (a zero-initialized static array; indices at and above MAX_CLIENTS or
below 0 are never used in executions within the table capacity). -/
structure ServerState where
  hwm : Int
  live : Int
  table : Int → Client_info

/-- Embedding of svr_op_ct_init: the response index is the post-increment
value of NumActiveClientsHWM, the table entry at that index is reset and
filled from the request, and NumActiveClients is incremented. Returns the
new state and the index assigned to the joining client. -/
def svr_op_ct_init (req : Request) (st : ServerState) : ServerState × Int :=
  let idx := st.hwm
  let info : Client_info :=
    { clientId := req.clientId, client_idx := idx, client_ctr := req.counter,
      num_ops := 0, throughput := 0, last_mtype := REQ_MT_INIT }
  ({ hwm := st.hwm + 1, live := st.live + 1,
     table := fun i => if i = idx then info else st.table i }, idx)

/-- Embedding of svr_op_incr: bump the client counter and operation count
of the entry at the request index. -/
def svr_op_incr (req : Request) (st : ServerState) : ServerState :=
  let c := st.table req.client_idx
  let c2 : Client_info :=
    { c with last_mtype := REQ_MT_INCR, client_ctr := c.client_ctr + 1,
             num_ops := c.num_ops + 1 }
  { st with table := fun i => if i = req.client_idx then c2 else st.table i }

/-- One dispatch round of svr_proc_process_msg: INIT calls svr_op_ct_init,
INCR calls svr_op_incr, SET_THROUGHPUT records the client-reported
throughput in the table, and EXIT with a non-negative index (a real client,
not the inter-thread shutdown message) decrements only NumActiveClients,
leaving the high-water mark and the table untouched. -/
def svr_proc_step (st : ServerState) (req : Request) : ServerState :=
  if req.mtype = REQ_MT_INIT then (svr_op_ct_init req st).1
  else if req.mtype = REQ_MT_INCR then svr_op_incr req st
  else if req.mtype = REQ_MT_SET_THROUGHPUT then
    { st with table := fun i => if i = req.client_idx then
        { (st.table req.client_idx) with throughput := req.counter }
      else st.table i }
  else if req.mtype = REQ_MT_EXIT then
    if 0 ≤ req.client_idx then { st with live := st.live - 1 } else st
  else st

/-- The server loop over a trace of requests. -/
def svr_run (st : ServerState) : List Request → ServerState
  | [] => st
  | r :: rest => svr_run (svr_proc_step st r) rest

/-- The table indices handed out to joining clients along a trace, in join
order. -/
def assignedIndices (st : ServerState) : List Request → List Int
  | [] => []
  | r :: rest =>
      if r.mtype = REQ_MT_INIT then
        (svr_op_ct_init r st).2 :: assignedIndices (svr_proc_step st r) rest
      else assignedIndices (svr_proc_step st r) rest

/-- Number of INIT requests in a trace. -/
def countInits : List Request → Nat
  | [] => 0
  | r :: rest => (if r.mtype = REQ_MT_INIT then 1 else 0) + countInits rest

lemma svr_proc_step_hwm (st : ServerState) (r : Request) :
    (svr_proc_step st r).hwm =
      if r.mtype = REQ_MT_INIT then st.hwm + 1 else st.hwm := by
  unfold svr_proc_step svr_op_ct_init
  split_ifs <;> rfl

/-- C9: along any request trace the table indices handed to successively
joining clients are exactly consecutive integers starting at the current
high-water mark, so each join takes the next index and no index is ever
reused; the high-water mark only grows, by the number of INIT requests; and
an EXIT from a real client decrements only the live count, leaving the
high-water mark and every table entry (including the retired client's)
unchanged. -/
theorem client_table_indices_never_reused (st : ServerState) (reqs : List Request) :
    assignedIndices st reqs =
      (List.range (countInits reqs)).map (fun k : Nat => st.hwm + (k : Int))
    ∧ (svr_run st reqs).hwm = st.hwm + (countInits reqs : Int)
    ∧ (∀ r, r.mtype = REQ_MT_EXIT → 0 ≤ r.client_idx →
        (svr_proc_step st r).hwm = st.hwm ∧
        (svr_proc_step st r).live = st.live - 1 ∧
        (∀ i, (svr_proc_step st r).table i = st.table i)) := by
  refine ⟨?_, ?_, ?_⟩
  · induction reqs generalizing st with
    | nil => simp [assignedIndices, countInits]
    | cons r rest ih =>
      by_cases hr : r.mtype = REQ_MT_INIT
      · have hwm' : (svr_proc_step st r).hwm = st.hwm + 1 := by
          rw [svr_proc_step_hwm, if_pos hr]
        rw [assignedIndices, if_pos hr, ih (svr_proc_step st r), hwm']
        show (st.hwm : Int) :: _ = _
        rw [countInits, if_pos hr]
        rw [show 1 + countInits rest = countInits rest + 1 from Nat.add_comm _ _]
        rw [List.range_succ_eq_map, List.map_cons, List.map_map]
        congr 1
        · simp
        · apply List.map_congr_left
          intro k _
          simp [Function.comp]
          ring
      · have hwm' : (svr_proc_step st r).hwm = st.hwm := by
          rw [svr_proc_step_hwm, if_neg hr]
        rw [assignedIndices, if_neg hr, ih (svr_proc_step st r), hwm']
        rw [countInits, if_neg hr]
        norm_num
  · induction reqs generalizing st with
    | nil => simp [svr_run, countInits]
    | cons r rest ih =>
      rw [svr_run, ih (svr_proc_step st r), svr_proc_step_hwm, countInits]
      split_ifs <;> push_cast <;> ring
  · intro r hmt hidx
    have h1 : r.mtype ≠ REQ_MT_INIT := by
      rw [hmt]
      decide
    have h2 : r.mtype ≠ REQ_MT_INCR := by
      rw [hmt]
      decide
    have h3 : r.mtype ≠ REQ_MT_SET_THROUGHPUT := by
      rw [hmt]
      decide
    unfold svr_proc_step
    rw [if_neg h1, if_neg h2, if_neg h3, if_pos hmt, if_pos hidx]
    exact ⟨rfl, rfl, fun i => rfl⟩


/-- The zero-initialized static ActiveClients entry. -/
def zeroClientInfo : Client_info :=
  { clientId := 0, client_idx := 0, client_ctr := 0, num_ops := 0,
    throughput := 0, last_mtype := 0 }

/-- The server state at startup: empty table, both counters zero. -/
def serverStart : ServerState :=
  { hwm := 0, live := 0, table := fun _ => zeroClientInfo }

/-- A trace where a third client joins after an earlier client has exited
mid-run. -/
def demoReqs : List Request :=
  [{ mtype := 1, clientId := 101, client_idx := -1, counter := 5 },
   { mtype := 1, clientId := 102, client_idx := -1, counter := 7 },
   { mtype := 5, clientId := 101, client_idx := 0, counter := 0 },
   { mtype := 1, clientId := 103, client_idx := -1, counter := 9 }]

/-- The EXIT request of the demo trace. -/
def demoExit : Request :=
  { mtype := 5, clientId := 101, client_idx := 0, counter := 0 }

/-- Witness for the client-table theorem on the demo trace: the assigned
indices are consecutive from zero even across the mid-run exit, and the exit
leaves the high-water mark alone. -/
theorem client_table_indices_never_reused_witness :
    demoExit.mtype = REQ_MT_EXIT ∧ 0 ≤ demoExit.client_idx ∧
    assignedIndices serverStart demoReqs =
      (List.range (countInits demoReqs)).map (fun k : Nat => serverStart.hwm + (k : Int)) ∧
    (svr_proc_step serverStart demoExit).hwm = serverStart.hwm :=
  ⟨rfl, by decide,
   (client_table_indices_never_reused serverStart demoReqs).1,
   ((client_table_indices_never_reused serverStart demoReqs).2.2 demoExit rfl
     (by decide)).1⟩

end SvMsg
